import Mathlib

/-!
# Verification of the ServicesAttributes schema guard and sync orchestrator

Shallow embedding of the pure logic of `compare_data.py`, `copy_data.py` and
`syncdata.py`.  Python strings are modelled as `List Char`; Python dicts as
association lists with Python's assignment semantics (first-insertion position,
last value wins); the external geospatial engine (arcpy) is modelled by
explicit descriptor records and by row lists for feature-class contents.
-/

namespace ServicesAttributes

/-- Python strings are modelled as lists of characters. -/
abbrev Str := List Char

/-- Model of Python `str.strip()`: remove leading and trailing whitespace. -/
def pyStrip (s : Str) : Str :=
  ((s.dropWhile Char.isWhitespace).reverse.dropWhile Char.isWhitespace).reverse

/-- Model of Python `str.lower()` (ASCII case folding, as `Char.toLower`). -/
def pyLower (s : Str) : Str :=
  s.map Char.toLower

/-- `_norm_name` from `compare_data.py`: empty/falsy input maps to `""`;
otherwise strip, lowercase, and remove a single trailing underscore. -/
def _norm_name (s : Str) : Str :=
  if s = [] then []
  else
    let t := pyLower (pyStrip s)
    if t.getLast? = some '_' then t.dropLast else t

/-! ## Python dict model

A Python dict is modelled as an association list.  Assignment `d[k] = v`
keeps the position of an existing key and overwrites its value; a new key is
appended at the end.  Lookup `d.get(k)` returns the value stored at `k`. -/

/-- Python dict assignment `d[k] = v`. -/
def dictInsert (d : List (Str × α)) (k : Str) (v : α) : List (Str × α) :=
  if d.any (fun p => p.1 = k) then
    d.map (fun p => if p.1 = k then (k, v) else p)
  else
    d ++ [(k, v)]

/-- Python dict lookup `d.get(k)` (also backs `k in d`). -/
def dictGet (d : List (Str × α)) (k : Str) : Option α :=
  (d.find? (fun p => p.1 = k)).map (fun p => p.2)

/-- The keys of a dict, in order. -/
def dictKeys (d : List (Str × α)) : List Str :=
  d.map (fun p => p.1)

/-! ## Field model: raw fields and the rich catalog (`_list_user_fields_rich`) -/

/-- A raw field of an arcpy `Describe` result: `name`, `aliasName`, `type`,
`length`.  `name`/`aliasName` may be absent (`None`); `type` is one of
arcpy's type strings (`"String"`, `"Integer"`, ...). -/
structure RawField where
  name : Option Str
  aliasName : Option Str
  ftype : Str
  length : Option Nat
deriving DecidableEq

/-- The rich per-field record stored in a catalog by `_list_user_fields_rich`. -/
structure FieldInfo where
  name : Str
  falias : Str
  ftype : Str
  length : Option Nat
  norm : Str
  alias_norm : Str
deriving DecidableEq

/-- `SYSTEM_FIELD_NAMES` from `compare_data.py`. -/
def SYSTEM_FIELD_NAMES : List Str :=
  ["objectid".data, "shape".data, "globalid".data, "shape_area".data, "shape_length".data]

/-- The field types skipped by `_list_user_fields_rich`. -/
def EXCLUDED_TYPES : List Str :=
  ["OID".data, "Geometry".data, "GlobalID".data, "Blob".data, "Raster".data, "XML".data]

/-- One step of the loop body of `_list_user_fields_rich`. -/
def listUserFieldsStep (out : List (Str × FieldInfo)) (fld : RawField) :
    List (Str × FieldInfo) :=
  let name := pyStrip (fld.name.getD [])
  let lname := pyLower name
  if SYSTEM_FIELD_NAMES.contains lname then out
  else if EXCLUDED_TYPES.contains fld.ftype then out
  else
    let falias := fld.aliasName.getD []
    let key := _norm_name name
    dictInsert out key
      { name := name
        falias := falias
        ftype := fld.ftype
        length := if fld.ftype = "String".data then fld.length else none
        norm := key
        alias_norm := _norm_name falias }

/-- `_list_user_fields_rich`: the catalog of user fields keyed by normalized
name, skipping system fields and excluded types. -/
def _list_user_fields_rich (fields : List RawField) : List (Str × FieldInfo) :=
  fields.foldl listUserFieldsStep []

/-- A field catalog: a dict from normalized key to rich field info. -/
abbrev Catalog := List (Str × FieldInfo)

/-! ## Python `sorted` on strings -/

/-- Python string `<`: lexicographic comparison by code point. -/
def strLt : Str → Str → Bool
  | [], [] => false
  | [], _ :: _ => true
  | _ :: _, [] => false
  | a :: as, b :: bs => if a = b then strLt as bs else decide (a < b)

/-- Insert into a sorted list of strings (stable). -/
def insertSorted (x : Str) : List Str → List Str
  | [] => [x]
  | y :: ys => if strLt y x then y :: insertSorted x ys else x :: y :: ys

/-- Model of Python `sorted` on a collection of strings. -/
def pySorted (l : List Str) : List Str :=
  l.foldr insertSorted []

/-! ## `_compare_fields_core` -/

/-- The reverse alias index `t_by_alias` (dict comprehension keyed by
`alias_norm`, skipping falsy alias norms; duplicate alias norms: last wins). -/
def t_by_alias (t : Catalog) : List (Str × Str) :=
  t.foldl
    (fun d p => if p.2.alias_norm = [] then d else dictInsert d p.2.alias_norm p.1) []

/-- The name pass: source keys present in both catalogs (these are also the
name-matched target keys). -/
def nameMatched (s t : Catalog) : List Str :=
  (dictKeys s).filter (fun k => (dictGet t k).isSome)

/-- The alias pass: each source key not matched by name, with a non-empty
alias norm found in the target alias index, is paired with the indexed
target key.  The pass never consults the set of already-matched target
keys, so the produced target keys may repeat keys matched by name. -/
def aliasPairs (s t : Catalog) : List (Str × Str) :=
  ((dictKeys s).filter (fun k => (dictGet t k).isNone)).filterMap (fun sk =>
    (dictGet s sk).bind (fun info =>
      if info.alias_norm = [] then none
      else (dictGet (t_by_alias t) info.alias_norm).map (fun tk => (sk, tk))))

/-- The set `matched_src` after both passes (as a list; membership is what
matters). -/
def matchedSrcKeys (s t : Catalog) : List Str :=
  nameMatched s t ++ (aliasPairs s t).map (fun p => p.1)

/-- The set `matched_tgt` after both passes (as a list; membership is what
matters). -/
def matchedTgtKeys (s t : Catalog) : List Str :=
  nameMatched s t ++ (aliasPairs s t).map (fun p => p.2)

/-- `missing_src_keys`: source keys never matched, sorted. -/
def missing_src_keys (s t : Catalog) : List Str :=
  pySorted ((dictKeys s).filter (fun k => !(matchedSrcKeys s t).contains k))

/-- `extra_tgt_keys`: target keys never matched, sorted. -/
def extra_tgt_keys (s t : Catalog) : List Str :=
  pySorted ((dictKeys t).filter (fun k => !(matchedTgtKeys s t).contains k))

/-- The extras loop, `not allowed` branch: extra target names whose lowered
raw name is not in the lowered allow-list. -/
def extras_not_allowed_of (t : Catalog) (allowedLc : List Str) (keys : List Str) :
    List Str :=
  keys.filterMap (fun tk => (dictGet t tk).bind (fun info =>
    if allowedLc.contains (pyLower info.name) then none else some info.name))

/-- The extras loop, `allowed` branch: extra target names whose lowered raw
name is in the lowered allow-list. -/
def extras_allowed_ignored_of (t : Catalog) (allowedLc : List Str) (keys : List Str) :
    List Str :=
  keys.filterMap (fun tk => (dictGet t tk).bind (fun info =>
    if allowedLc.contains (pyLower info.name) then some info.name else none))

/-- A type/length mismatch record.  The Python code renders these as
formatted strings; the record keeps the same data (both names and both
types, resp. both lengths). -/
inductive Mismatch
  | typeDiff (srcName tgtName srcType tgtType : Str)
  | lenDiff (srcName tgtName : Str) (srcLen tgtLen : Nat)
deriving DecidableEq

/-- One iteration of the type/length mismatch loop for a matched source key:
resolve the corresponding target key (by name, else via the alias index) and
compare types, then lengths for `String` fields (null length counts as 0). -/
def mismatchFor (s t : Catalog) (sk : Str) : Option Mismatch :=
  (dictGet s sk).bind (fun s_info =>
    (if (dictGet t sk).isSome then some sk
     else dictGet (t_by_alias t) s_info.alias_norm).bind (fun tk =>
      (dictGet t tk).bind (fun t_info =>
        if s_info.ftype ≠ t_info.ftype then
          some (Mismatch.typeDiff s_info.name t_info.name s_info.ftype t_info.ftype)
        else if s_info.ftype = "String".data then
          if s_info.length.getD 0 ≠ t_info.length.getD 0 then
            some (Mismatch.lenDiff s_info.name t_info.name (s_info.length.getD 0)
                    (t_info.length.getD 0))
          else none
        else none)))

/-- The mismatch list over all matched source keys (the Python loop iterates
the set `matched_src`; we iterate the source keys in catalog order). -/
def mismatchesOf (s t : Catalog) : List Mismatch :=
  ((dictKeys s).filter (fun k => (matchedSrcKeys s t).contains k)).filterMap
    (mismatchFor s t)

/-- The `details` dict returned by `_compare_fields_core`. -/
structure MatchDetails where
  missing_in_target : List Str
  extras_not_allowed : List Str
  type_length_mismatches : List Mismatch
  extras_allowed_ignored : List Str
deriving DecidableEq

/-- `_compare_fields_core`: full field comparison, returning `(ok, details)`. -/
def _compare_fields_core (srcFields tgtFields : List RawField) (allowed : List Str) :
    Bool × MatchDetails :=
  let allowedLc := allowed.map pyLower
  let s := _list_user_fields_rich srcFields
  let t := _list_user_fields_rich tgtFields
  let missing := missing_src_keys s t
  let extras := extra_tgt_keys s t
  let notAllowed := extras_not_allowed_of t allowedLc extras
  let ignored := extras_allowed_ignored_of t allowedLc extras
  let mismatches := mismatchesOf s t
  let ok := missing.isEmpty && notAllowed.isEmpty && mismatches.isEmpty
  (ok,
    { missing_in_target := missing.filterMap (fun k => (dictGet s k).map (fun i => i.name))
      extras_not_allowed := notAllowed
      type_length_mismatches := mismatches
      extras_allowed_ignored := ignored })

/-! ## Describe model and the schema guard -/

/-- Model of an arcpy spatial-reference object: its `factoryCode` (WKID),
possibly absent. -/
structure SpatialRef where
  factoryCode : Option Int
deriving DecidableEq

/-- Model of an arcpy `Describe` result: spatial reference, `shapeType`
and the field list (each possibly absent where the code guards for it). -/
structure Descriptor where
  spatialReference : Option SpatialRef
  shapeType : Option Str
  fields : List RawField
deriving DecidableEq

/-- `sr_wkid` from `compare_data.py`. -/
def sr_wkid (d : Descriptor) : Option Int :=
  d.spatialReference.bind (fun sr => sr.factoryCode)

/-- `geom_type` from `compare_data.py`. -/
def geom_type (d : Descriptor) : Option Str :=
  d.shapeType

/-- Python `str(...)` applied to an optional string: `None` renders as
the four-character string `"None"`. -/
def pyStrOfOpt (o : Option Str) : Str :=
  match o with
  | none => "None".data
  | some s => s

/-- The result record of `schema_compare_details` (the debugging field dumps
are omitted; they are not consumed by any caller in the repository). -/
structure CompareResult where
  sr_ok : Bool
  tgt_wkid : Option Int
  geom_ok : Bool
  src_geom : Str
  tgt_geom : Str
  fields_ok : Bool
  field_details : MatchDetails
deriving DecidableEq

/-- `schema_compare_details`: geometry-type check (case-insensitive, on the
`str(...)` renderings), target-WKID check against 4326, and the field
comparison. -/
def schema_compare_details (s_desc t_desc : Descriptor) (allowed : List Str) :
    CompareResult :=
  let src_geom := pyStrOfOpt (geom_type s_desc)
  let tgt_geom := pyStrOfOpt (geom_type t_desc)
  let geom_ok := pyLower src_geom = pyLower tgt_geom
  let tgt_wkid := sr_wkid t_desc
  let sr_ok := tgt_wkid = some 4326
  let fc := _compare_fields_core s_desc.fields t_desc.fields allowed
  { sr_ok := sr_ok
    tgt_wkid := tgt_wkid
    geom_ok := geom_ok
    src_geom := src_geom
    tgt_geom := tgt_geom
    fields_ok := fc.1
    field_details := fc.2 }

/-- `schema_equal`: boolean wrapper around `schema_compare_details`. -/
def schema_equal (s_desc t_desc : Descriptor) (allowed : List Str) : Bool :=
  let res := schema_compare_details s_desc t_desc allowed
  res.sr_ok && res.geom_ok && res.fields_ok

/-! ## Sync orchestrator (`syncdata.py`)

Feature-class contents are modelled as lists of abstract rows.  The arcpy
write primitives become list operations: `TruncateTable` clears the rows,
the `UpdateCursor` fallback deletes them one at a time, `Append` with
`NO_TEST` adds the source rows after the surviving target rows. -/

/-- An abstract feature row (attributes and geometry are irrelevant to the
properties verified here). -/
structure Row where
  oid : Nat
deriving DecidableEq

/-- The `UpdateCursor` fallback of `truncate_then_append`: iterate over the
current rows deleting each one; returns the remaining rows and the number
of `deleteRow` calls made. -/
def cursorDeleteAll : List Row → List Row × Nat
  | [] => ([], 0)
  | _ :: rest =>
    let r := cursorDeleteAll rest
    (r.1, r.2 + 1)

/-- `truncate_then_append`: clear the target (bulk truncate, or the
row-by-row cursor fallback when the bulk truncate raises), then append the
source rows.  `truncateRaises` says whether the engine rejects the bulk
truncate. -/
def truncate_then_append (truncateRaises : Bool) (src tgt : List Row) : List Row :=
  let cleared := if truncateRaises then (cursorDeleteAll tgt).1 else []
  cleared ++ src

/-- The write operations `process_pair` can perform on the target. -/
inductive WriteOp
  | truncate
  | rowDelete
  | append
  | create
deriving DecidableEq

/-- The per-pair outcome (the spec's `CREATED` / `SKIPPED_SCHEMA_MISMATCH` /
`SYNCED` states, plus the caught-failure outcome). -/
inductive Outcome
  | created (rows : List Row)
  | skippedMismatch (det : MatchDetails)
  | synced (rows : List Row)
  | failed (msg : Str)
deriving DecidableEq

/-- The environment of one `process_pair` call: the results the external
collaborators would deliver.  Fallible collaborator steps are `Except`
values (`Except.error` models a raised exception). -/
structure PairEnv where
  schemaExtract : Except Str Descriptor
  targetExists : Bool
  tgtDesc : Descriptor
  tgtRows : List Row
  exportRows : Except Str (List Row)
  projectRows : Except Str (List Row)
  truncateRaises : Bool
  allowed : List Str

/-- The effect of one `process_pair` body on the target: outcome, target
rows afterwards, and the trace of write operations performed on the target. -/
structure PairEffect where
  outcome : Outcome
  tgtRowsAfter : List Row
  writes : List WriteOp
deriving DecidableEq

/-- The `try` block of `process_pair`: build the schema-only source, branch
on target existence, guard with `schema_equal`, and sync or skip.  Each
fallible collaborator call is sequenced explicitly: an `Except.error`
short-circuits like a raised exception. -/
def process_pair_body (env : PairEnv) : Except Str PairEffect :=
  match env.schemaExtract with
  | Except.error e => Except.error e
  | Except.ok _ =>
    if !env.targetExists then
      match env.exportRows with
      | Except.error e => Except.error e
      | Except.ok _ =>
        match env.projectRows with
        | Except.error e => Except.error e
        | Except.ok wgs => Except.ok ⟨Outcome.created wgs, wgs, [WriteOp.create]⟩
    else
      match env.schemaExtract with
      | Except.error e => Except.error e
      | Except.ok srcSchema =>
        if !(schema_equal srcSchema env.tgtDesc env.allowed) then
          Except.ok ⟨Outcome.skippedMismatch
                       (schema_compare_details srcSchema env.tgtDesc env.allowed).field_details,
                     env.tgtRows, []⟩
        else
          match env.exportRows with
          | Except.error e => Except.error e
          | Except.ok _ =>
            match env.projectRows with
            | Except.error e => Except.error e
            | Except.ok wgs =>
              Except.ok ⟨Outcome.synced (truncate_then_append env.truncateRaises wgs env.tgtRows),
                         truncate_then_append env.truncateRaises wgs env.tgtRows,
                         (if env.truncateRaises then env.tgtRows.map (fun _ => WriteOp.rowDelete)
                          else [WriteOp.truncate]) ++ [WriteOp.append]⟩

/-- The reserved in-memory scratch object names deleted by the `finally`
block of `process_pair`. -/
def scratch_names : List Str :=
  ["src_schema_tmp".data, "src_rows".data, "src_rows_wgs84".data]

/-- The `finally` block: best-effort deletion of every scratch object. -/
def cleanup_scratch (scratch : List Str) : List Str :=
  scratch.filter (fun n => !(scratch_names.contains n))

/-- `process_pair` with its `try`/`except`/`finally` structure: a raised
exception is caught and reported as a `failed` outcome, and the scratch
cleanup runs on every path. -/
def process_pair_run (env : PairEnv) (scratch : List Str) : Outcome × List Str :=
  match process_pair_body env with
  | Except.ok eff => (eff.outcome, cleanup_scratch scratch)
  | Except.error e => (Outcome.failed e, cleanup_scratch scratch)

/-- The batch loop of `main`: process every configured pair in order. -/
def mainLoop (envs : List PairEnv) : List Outcome :=
  envs.map (fun env => (process_pair_run env []).1)

/-! ## Concrete inputs used by witnesses and counterexamples -/

/-- Build a raw field from plain strings. -/
def mkField (n a ty : String) (len : Option Nat) : RawField :=
  ⟨some n.data, some a.data, ty.data, len⟩

/-- Source fields for the C1 witness: two user fields. -/
def c1SrcDesc : Descriptor :=
  ⟨some ⟨some 4326⟩, some "Polygon".data,
   [mkField "ProjId" "" "Integer" none, mkField "Status" "" "String" (some 50)]⟩

/-- Target for the C1 witness: same but missing the `Status` field, so the
guard verdict is not ok. -/
def c1TgtDesc : Descriptor :=
  ⟨some ⟨some 4326⟩, some "Polygon".data, [mkField "ProjId" "" "Integer" none]⟩

/-- Environment for the C1 witness: target exists, schemas mismatch. -/
def c1Env : PairEnv :=
  { schemaExtract := Except.ok c1SrcDesc
    targetExists := true
    tgtDesc := c1TgtDesc
    tgtRows := [⟨1⟩, ⟨2⟩, ⟨3⟩]
    exportRows := Except.ok [⟨10⟩]
    projectRows := Except.ok [⟨10⟩]
    truncateRaises := false
    allowed := [] }

/-- Source fields for the C2 counterexample: `status` (no alias) and `code`
with alias `Status`. -/
def c2SrcFields : List RawField :=
  [mkField "status" "" "String" (some 10), mkField "code" "Status" "String" (some 10)]

/-- Target field for the C2 counterexample: `status` with alias `Status`.
Its key is matched by name with source `status`, yet the alias pass pairs it
again with source `code`. -/
def c2TgtFields : List RawField :=
  [mkField "status" "Status" "String" (some 10)]

/-- Source fields for the C2 witness of the amended claim: the spec's alias
fallback example `qty` (alias `Quantity`). -/
def c2wSrcFields : List RawField :=
  [mkField "qty" "Quantity" "String" (some 10)]

/-- Target fields for the C2 witness: `amount_qty_` (alias `Quantity`). -/
def c2wTgtFields : List RawField :=
  [mkField "amount_qty_" "Quantity" "String" (some 10)]

/-- Source field for the C5 counterexample: named `_`, whose normalized key
is the empty string. -/
def c5SrcFields : List RawField :=
  [mkField "_" "" "String" (some 10)]

/-- Target field for the C5 counterexample: named `\x20` (one space), whose
normalized key is also the empty string. -/
def c5TgtFields : List RawField :=
  [mkField " " "" "String" (some 10)]

/-- Target fields for the C6 witness: an allow-listed extra and an extra that
differs from its allow-list entry only by the trailing-underscore quirk. -/
def c6TgtFields : List RawField :=
  [mkField "Created_Date" "" "Date" none, mkField "Created_User_" "" "String" (some 10)]

/-- Allow-list for the C6 witness. -/
def c6Allowed : List Str :=
  ["created_date".data, "created_user".data]

/-- Source field for the C7 witness: `String` of length 50. -/
def c7SrcFields : List RawField :=
  [mkField "nm" "" "String" (some 50)]

/-- Target field for the C7 witness: same name, `String` of length 100. -/
def c7TgtFields : List RawField :=
  [mkField "nm" "" "String" (some 100)]

/-- Environment for the C9 witness: the schema extraction raises. -/
def c9Env : PairEnv :=
  { schemaExtract := Except.error "service unreachable".data
    targetExists := true
    tgtDesc := ⟨none, none, []⟩
    tgtRows := []
    exportRows := Except.ok []
    projectRows := Except.ok []
    truncateRaises := false
    allowed := [] }

/-! ## Supporting lemmas -/

theorem cursorDeleteAll_eq (l : List Row) : cursorDeleteAll l = ([], l.length) := by
  induction l with
  | nil => rfl
  | cons a rest ih => simp [cursorDeleteAll, ih]

theorem mem_insertSorted (x a : Str) (l : List Str) :
    x ∈ insertSorted a l ↔ x = a ∨ x ∈ l := by
  induction l with
  | nil => simp [insertSorted]
  | cons y ys ih =>
    rw [insertSorted]
    split
    · simp only [List.mem_cons, ih]
      tauto
    · simp only [List.mem_cons]

theorem mem_pySorted (x : Str) (l : List Str) : x ∈ pySorted l ↔ x ∈ l := by
  induction l with
  | nil => simp [pySorted]
  | cons y ys ih =>
    rw [pySorted, List.foldr_cons, mem_insertSorted]
    rw [pySorted] at ih
    simp [ih]

theorem dictGet_isSome_of_mem_keys {α : Type} {d : List (Str × α)} {k : Str}
    (h : k ∈ dictKeys d) : (dictGet d k).isSome := by
  rw [dictGet]
  rw [dictKeys, List.mem_map] at h
  rcases h with ⟨p, hp, hk⟩
  have hfind : (List.find? (fun p => decide (p.1 = k)) d).isSome :=
    List.find?_isSome.mpr ⟨p, hp, by simp [hk]⟩
  rcases Option.isSome_iff_exists.mp hfind with ⟨q, hq⟩
  rw [hq]
  rfl

theorem missing_src_keys_subset_keys {s t : Catalog} {k : Str}
    (h : k ∈ missing_src_keys s t) : k ∈ dictKeys s := by
  rw [missing_src_keys, mem_pySorted, List.mem_filter] at h
  exact h.1

/-- `fields_ok` is exactly the conjunction of the three emptiness conditions
on the returned detail lists. -/
theorem compare_fields_core_ok_iff (srcFields tgtFields : List RawField) (allowed : List Str) :
    (_compare_fields_core srcFields tgtFields allowed).1 = true ↔
      ((_compare_fields_core srcFields tgtFields allowed).2.missing_in_target = [] ∧
       (_compare_fields_core srcFields tgtFields allowed).2.extras_not_allowed = [] ∧
       (_compare_fields_core srcFields tgtFields allowed).2.type_length_mismatches = []) := by
  rw [_compare_fields_core]
  simp only [Bool.and_eq_true, List.isEmpty_eq_true]
  constructor
  · rintro ⟨⟨hm, hn⟩, hmm⟩
    exact ⟨by rw [hm]; rfl, hn, hmm⟩
  · rintro ⟨hm, hn, hmm⟩
    refine ⟨⟨?_, hn⟩, hmm⟩
    by_contra hne
    rcases List.exists_mem_of_ne_nil _ hne with ⟨k, hk⟩
    have hsome := dictGet_isSome_of_mem_keys (missing_src_keys_subset_keys hk)
    rcases Option.isSome_iff_exists.mp hsome with ⟨info, hinfo⟩
    have : (dictGet (_list_user_fields_rich srcFields) k).map (fun i => i.name) =
        some info.name := by rw [hinfo]; rfl
    have hmem : info.name ∈ (missing_src_keys (_list_user_fields_rich srcFields)
        (_list_user_fields_rich tgtFields)).filterMap
          (fun k => (dictGet (_list_user_fields_rich srcFields) k).map (fun i => i.name)) := by
      exact List.mem_filterMap.mpr ⟨k, hk, this⟩
    rw [hm] at hmem
    exact List.not_mem_nil _ hmem

/-! ## C8: verdict composition -/

/-- C8: `schema_equal` returns true iff the target WKID is 4326, the two
geometry-type strings are equal case-insensitively, and the field comparison
reports no missing field, no disallowed extra and no type/length mismatch —
that is, `ok = sr_ok AND geom_ok AND fields_ok`. -/
theorem C8_verdict_composition (s_desc t_desc : Descriptor) (allowed : List Str) :
    schema_equal s_desc t_desc allowed = true ↔
      (sr_wkid t_desc = some 4326 ∧
       pyLower (pyStrOfOpt (geom_type s_desc)) = pyLower (pyStrOfOpt (geom_type t_desc)) ∧
       (_compare_fields_core s_desc.fields t_desc.fields allowed).2.missing_in_target = [] ∧
       (_compare_fields_core s_desc.fields t_desc.fields allowed).2.extras_not_allowed = [] ∧
       (_compare_fields_core s_desc.fields t_desc.fields allowed).2.type_length_mismatches = []) := by
  rw [schema_equal, schema_compare_details]
  simp only [Bool.and_eq_true, decide_eq_true_eq]
  rw [compare_fields_core_ok_iff]
  tauto

theorem aliasPairs_mem {s t : Catalog} {p : Str × Str} (h : p ∈ aliasPairs s t) :
    p.1 ∈ dictKeys s ∧ (dictGet t p.1).isNone ∧
    ∃ info, dictGet s p.1 = some info ∧ info.alias_norm ≠ [] ∧
      dictGet (t_by_alias t) info.alias_norm = some p.2 := by
  rw [aliasPairs, List.mem_filterMap] at h
  rcases h with ⟨sk, hsk, hf⟩
  rw [List.mem_filter] at hsk
  rcases hget : dictGet s sk with _ | info
  · rw [hget] at hf
    simp at hf
  · rw [hget, Option.some_bind] at hf
    by_cases halias : info.alias_norm = []
    · rw [if_pos halias] at hf
      simp at hf
    · rw [if_neg halias] at hf
      rcases Option.map_eq_some'.mp hf with ⟨tk, htk, hp⟩
      subst hp
      exact ⟨hsk.1, by simpa using hsk.2, info, hget, halias, htk⟩

theorem matchedSrcKeys_subset {s t : Catalog} {sk : Str}
    (h : sk ∈ matchedSrcKeys s t) : sk ∈ dictKeys s := by
  rw [matchedSrcKeys, List.mem_append] at h
  rcases h with h | h
  · exact (List.mem_filter.mp (by rw [nameMatched] at h; exact h)).1
  · rcases List.mem_map.mp h with ⟨p, hp, hfst⟩
    rw [← hfst]
    exact (aliasPairs_mem hp).1

/-! ## C7: type/length check on matched pairs -/

/-- C7: for every matched source/target field pair (with the target key
resolved the way the mismatch loop resolves it: by name if present, else via
the alias index): a type difference is recorded with both names and both
types; equal `String` types with different lengths (null counted as 0) are
recorded with both lengths; and any recorded mismatch makes `fields_ok`
false. -/
theorem C7_type_length_check (srcFields tgtFields : List RawField) (allowed : List Str)
    (s t : Catalog) (sk tk : Str) (s_info t_info : FieldInfo)
    (hsc : s = _list_user_fields_rich srcFields)
    (htc : t = _list_user_fields_rich tgtFields)
    (hmatched : sk ∈ matchedSrcKeys s t)
    (hs : dictGet s sk = some s_info)
    (htk : (if (dictGet t sk).isSome then some sk
            else dictGet (t_by_alias t) s_info.alias_norm) = some tk)
    (ht : dictGet t tk = some t_info) :
    (s_info.ftype ≠ t_info.ftype →
       Mismatch.typeDiff s_info.name t_info.name s_info.ftype t_info.ftype ∈
         (_compare_fields_core srcFields tgtFields allowed).2.type_length_mismatches) ∧
    (s_info.ftype = t_info.ftype → s_info.ftype = "String".data →
       s_info.length.getD 0 ≠ t_info.length.getD 0 →
       Mismatch.lenDiff s_info.name t_info.name (s_info.length.getD 0) (t_info.length.getD 0) ∈
         (_compare_fields_core srcFields tgtFields allowed).2.type_length_mismatches) ∧
    ((_compare_fields_core srcFields tgtFields allowed).2.type_length_mismatches ≠ [] →
       (_compare_fields_core srcFields tgtFields allowed).1 = false) := by
  subst hsc htc
  have hdetails : (_compare_fields_core srcFields tgtFields allowed).2.type_length_mismatches =
      mismatchesOf (_list_user_fields_rich srcFields) (_list_user_fields_rich tgtFields) := rfl
  set s := _list_user_fields_rich srcFields with hsdef
  set t := _list_user_fields_rich tgtFields with htdef
  have hmem_base : sk ∈ (dictKeys s).filter (fun k => (matchedSrcKeys s t).contains k) := by
    rw [List.mem_filter]
    refine ⟨matchedSrcKeys_subset hmatched, ?_⟩
    simpa [List.contains] using List.elem_iff.mpr hmatched
  refine ⟨?_, ?_, ?_⟩
  · intro hty
    rw [hdetails, mismatchesOf]
    refine List.mem_filterMap.mpr ⟨sk, hmem_base, ?_⟩
    rw [mismatchFor, hs, Option.some_bind, htk, Option.some_bind, ht, Option.some_bind]
    rw [if_pos hty]
  · intro hty hstr hlen
    rw [hdetails, mismatchesOf]
    refine List.mem_filterMap.mpr ⟨sk, hmem_base, ?_⟩
    rw [mismatchFor, hs, Option.some_bind, htk, Option.some_bind, ht, Option.some_bind]
    rw [if_neg (fun hne => hne hty), if_pos hstr, if_pos hlen]
  · intro hne
    rw [hdetails] at hne
    rw [_compare_fields_core]
    simp only [Bool.and_eq_false_iff, List.isEmpty_eq_false]
    exact Or.inr hne

/-- Witness for C7: matched `String` fields of lengths 50 and 100 produce a
recorded length mismatch and a false `fields_ok`. -/
theorem C7_witness :
    Mismatch.lenDiff "nm".data "nm".data 50 100 ∈
      (_compare_fields_core c7SrcFields c7TgtFields []).2.type_length_mismatches ∧
    (_compare_fields_core c7SrcFields c7TgtFields []).1 = false := by
  have h := C7_type_length_check c7SrcFields c7TgtFields []
    (_list_user_fields_rich c7SrcFields) (_list_user_fields_rich c7TgtFields)
    "nm".data "nm".data
    ⟨"nm".data, [], "String".data, some 50, "nm".data, []⟩
    ⟨"nm".data, [], "String".data, some 100, "nm".data, []⟩
    rfl rfl (by decide) (by decide) (by decide) (by decide)
  have hmem := h.2.1 (by decide) (by decide) (by decide)
  exact ⟨hmem, h.2.2 (by intro hnil; rw [hnil] at hmem; exact List.not_mem_nil _ hmem)⟩

theorem dictKeys_dictInsert {α : Type} (d : List (Str × α)) (k : Str) (v : α) :
    dictKeys (dictInsert d k v) =
      if d.any (fun p => p.1 = k) then dictKeys d else dictKeys d ++ [k] := by
  rw [dictInsert]
  split
  · rw [dictKeys, dictKeys, List.map_map]
    apply List.map_congr_left
    intro p hp
    by_cases h : p.1 = k
    · simp [h]
    · simp [h]
  · rw [dictKeys, dictKeys, List.map_append]
    rfl

theorem dictKeys_nodup_insert {α : Type} {d : List (Str × α)} (k : Str) (v : α)
    (h : (dictKeys d).Nodup) : (dictKeys (dictInsert d k v)).Nodup := by
  rw [dictKeys_dictInsert]
  split
  · exact h
  · rename_i hany
    have hk : k ∉ dictKeys d := by
      intro hmem
      rcases List.mem_map.mp hmem with ⟨p, hp, hpk⟩
      exact hany (List.any_eq_true.mpr ⟨p, hp, by simp [hpk]⟩)
    refine List.Nodup.append h (List.nodup_singleton k) ?_
    intro x hx hx1
    rw [List.mem_singleton.mp hx1] at hx
    exact hk hx

theorem listUserFields_keys_nodup_aux (fields : List RawField) (d : List (Str × FieldInfo))
    (h : (dictKeys d).Nodup) : (dictKeys (fields.foldl listUserFieldsStep d)).Nodup := by
  induction fields generalizing d with
  | nil => simpa using h
  | cons f rest ih =>
    rw [List.foldl_cons]
    apply ih
    rw [listUserFieldsStep]
    split
    · exact h
    · split
      · exact h
      · exact dictKeys_nodup_insert _ _ h

theorem listUserFields_keys_nodup (fields : List RawField) :
    (dictKeys (_list_user_fields_rich fields)).Nodup := by
  rw [_list_user_fields_rich]
  exact listUserFields_keys_nodup_aux fields [] (by simp [dictKeys])

theorem aliasPairs_fun_fst (s t : Catalog) (sk : Str) (p : Str × Str)
    (h : (dictGet s sk).bind (fun info => if info.alias_norm = [] then none
          else (dictGet (t_by_alias t) info.alias_norm).map (fun tk => (sk, tk))) = some p) :
    p.1 = sk := by
  rcases Option.bind_eq_some'.mp h with ⟨info, _, hif⟩
  by_cases halias : info.alias_norm = []
  · rw [if_pos halias] at hif
    simp at hif
  · rw [if_neg halias] at hif
    rcases Option.map_eq_some'.mp hif with ⟨tk, _, hp⟩
    rw [← hp]

theorem mem_fst_filterMap {l : List Str} {f : Str → Option (Str × Str)}
    (hf : ∀ a p, f a = some p → p.1 = a) {x : Str}
    (hx : x ∈ (l.filterMap f).map Prod.fst) : x ∈ l := by
  rcases List.mem_map.mp hx with ⟨p, hp, hfst⟩
  rcases List.mem_filterMap.mp hp with ⟨a, ha, hfa⟩
  rw [← hfst, hf a p hfa]
  exact ha

theorem nodup_fst_filterMap {l : List Str} {f : Str → Option (Str × Str)}
    (hf : ∀ a p, f a = some p → p.1 = a) (h : l.Nodup) :
    ((l.filterMap f).map Prod.fst).Nodup := by
  induction l with
  | nil => simp
  | cons a l ih =>
    rw [List.filterMap_cons]
    rcases List.nodup_cons.mp h with ⟨hna, hnd⟩
    split
    · exact ih hnd
    · rename_i p hfa
      rw [List.map_cons]
      refine List.nodup_cons.mpr ⟨?_, ih hnd⟩
      rw [hf a p hfa]
      intro hmem
      exact hna (mem_fst_filterMap hf hmem)

theorem matchedSrcKeys_nodup {s t : Catalog} (h : (dictKeys s).Nodup) :
    (matchedSrcKeys s t).Nodup := by
  rw [matchedSrcKeys]
  refine List.Nodup.append (h.filter _) ?_ ?_
  · rw [aliasPairs]
    exact nodup_fst_filterMap (aliasPairs_fun_fst s t) (h.filter _)
  · intro x hx hy
    have h1 : (dictGet t x).isSome := by
      rw [nameMatched] at hx
      simpa using (List.mem_filter.mp hx).2
    rw [aliasPairs] at hy
    have h2 := mem_fst_filterMap (aliasPairs_fun_fst s t) hy
    have h2n : (dictGet t x).isNone := by
      simpa using (List.mem_filter.mp h2).2
    rw [Option.isNone_iff_eq_none.mp h2n] at h1
    simp at h1

/-! ## C2: the alias pass and matched-key uniqueness -/

/-- C2 counterexample: with source fields `status` and `code` (alias
`Status`) and the single target field `status` (alias `Status`), the target
key `status` is matched by name with source `status` AND again by alias with
source `code` — the alias pass pairs a target key that is already
constrained by a name match, a matched target key is paired with two source
keys, and `code` is consequently not reported missing. -/
theorem C2_counterexample :
    nameMatched (_list_user_fields_rich c2SrcFields) (_list_user_fields_rich c2TgtFields) =
      ["status".data] ∧
    aliasPairs (_list_user_fields_rich c2SrcFields) (_list_user_fields_rich c2TgtFields) =
      [("code".data, "status".data)] ∧
    (_compare_fields_core c2SrcFields c2TgtFields []).2.missing_in_target = [] := by
  decide

/-- C2 amended: the alias pass never pairs a source key that already has a
name match (its name lookup in the target is `none`), and every source key
is matched at most once overall (`matched_src` has no duplicates) — but no
constraint is checked on the target side, so a target key may be paired
with several source keys (see the counterexample). -/
theorem C2_amended_alias_pass (srcFields : List RawField) (t : Catalog)
    (s : Catalog) (hsc : s = _list_user_fields_rich srcFields)
    (p : Str × Str) (hp : p ∈ aliasPairs s t) :
    p.1 ∉ nameMatched s t ∧ (dictGet t p.1).isNone = true ∧ (matchedSrcKeys s t).Nodup := by
  have hnone := (aliasPairs_mem hp).2.1
  refine ⟨?_, hnone, ?_⟩
  · intro hmem
    have h1 : (dictGet t p.1).isSome := by
      rw [nameMatched] at hmem
      simpa using (List.mem_filter.mp hmem).2
    rw [Option.isNone_iff_eq_none.mp hnone] at h1
    simp at h1
  · rw [hsc]
    exact matchedSrcKeys_nodup (listUserFields_keys_nodup srcFields)

/-- Witness for C2 at the spec's alias-fallback example: `qty` (alias
`Quantity`) pairs with `amount_qty_` (alias `Quantity`) in the alias pass. -/
theorem C2_witness :
    ("qty".data, "amount_qty".data).1 ∉
      nameMatched (_list_user_fields_rich c2wSrcFields) (_list_user_fields_rich c2wTgtFields) ∧
    (matchedSrcKeys (_list_user_fields_rich c2wSrcFields)
      (_list_user_fields_rich c2wTgtFields)).Nodup := by
  have h := C2_amended_alias_pass c2wSrcFields (_list_user_fields_rich c2wTgtFields)
    (_list_user_fields_rich c2wSrcFields) rfl ("qty".data, "amount_qty".data) (by decide)
  exact ⟨h.1, h.2.2⟩

theorem mem_keys_of_dictGet_isSome {α : Type} {d : List (Str × α)} {k : Str}
    (h : (dictGet d k).isSome) : k ∈ dictKeys d := by
  rw [dictGet] at h
  rcases hfind : List.find? (fun p => decide (p.1 = k)) d with _ | q
  · rw [hfind] at h
    simp at h
  · have hq := List.find?_some hfind
    have hmem := List.mem_of_find?_eq_some hfind
    rw [dictKeys, List.mem_map]
    exact ⟨q, hmem, by simpa using hq⟩

/-! ## C5: fields whose names normalize to the empty string -/

/-- C5 counterexample: source field `_` and target field consisting of one
space both normalize to the empty key, and the name pass DOES pair them:
nothing is reported missing and the comparison succeeds, contradicting the
claim that empty normalized keys never match. -/
theorem C5_counterexample :
    [] ∈ nameMatched (_list_user_fields_rich c5SrcFields) (_list_user_fields_rich c5TgtFields) ∧
    (_compare_fields_core c5SrcFields c5TgtFields []).2.missing_in_target = [] ∧
    (_compare_fields_core c5SrcFields c5TgtFields []).1 = true := by
  decide

/-- C5 amended: an empty normalized source key gets no special treatment in
the name pass — it is paired exactly when the target catalog also contains
an empty normalized key; in the alias pass, only a field whose `alias_norm`
is non-empty can be paired (an empty alias key never matches). -/
theorem C5_amended_empty_key (s t : Catalog) :
    ([] ∈ nameMatched s t ↔ ([] ∈ dictKeys s ∧ [] ∈ dictKeys t)) ∧
    ∀ p ∈ aliasPairs s t, ∀ info, dictGet s p.1 = some info → info.alias_norm ≠ [] := by
  constructor
  · constructor
    · intro h
      rw [nameMatched] at h
      rcases List.mem_filter.mp h with ⟨hks, hsome⟩
      exact ⟨hks, mem_keys_of_dictGet_isSome (by simpa using hsome)⟩
    · rintro ⟨hks, hkt⟩
      rw [nameMatched, List.mem_filter]
      exact ⟨hks, by simpa using dictGet_isSome_of_mem_keys hkt⟩
  · intro p hp info hinfo
    rcases (aliasPairs_mem hp).2.2 with ⟨info2, hinfo2, halias, -⟩
    rw [hinfo] at hinfo2
    rw [Option.some_inj.mp hinfo2]
    exact halias

/-- Witness for C5 at the concrete catalogs of the counterexample. -/
theorem C5_witness :
    [] ∈ nameMatched (_list_user_fields_rich c5SrcFields) (_list_user_fields_rich c5TgtFields) ↔
      ([] ∈ dictKeys (_list_user_fields_rich c5SrcFields) ∧
       [] ∈ dictKeys (_list_user_fields_rich c5TgtFields)) :=
  (C5_amended_empty_key (_list_user_fields_rich c5SrcFields)
    (_list_user_fields_rich c5TgtFields)).1

/-! ## C6: allow-list classification of target-only extras -/

/-- C6: every target-only (never-matched) field is classified as
`extras_allowed_ignored` iff its raw stored name, lowered, is a member of
the lowered allow-list, and as `extras_not_allowed` iff it is not; the
comparison is by raw target field name only (no normalization), so an extra
differing from an allow-listed entry only by a trailing underscore is not
recognized as allowed. -/
theorem C6_extras_allowlist (srcFields tgtFields : List RawField) (allowed : List Str)
    (s t : Catalog) (tk : Str) (info : FieldInfo)
    (hsc : s = _list_user_fields_rich srcFields)
    (htc : t = _list_user_fields_rich tgtFields)
    (htk : tk ∈ extra_tgt_keys s t)
    (hinfo : dictGet t tk = some info) :
    (info.name ∈ (_compare_fields_core srcFields tgtFields allowed).2.extras_allowed_ignored ↔
       (allowed.map pyLower).contains (pyLower info.name) = true) ∧
    (info.name ∈ (_compare_fields_core srcFields tgtFields allowed).2.extras_not_allowed ↔
       (allowed.map pyLower).contains (pyLower info.name) = false) := by
  subst hsc htc
  set s := _list_user_fields_rich srcFields
  set t := _list_user_fields_rich tgtFields
  have hig : (_compare_fields_core srcFields tgtFields allowed).2.extras_allowed_ignored =
      extras_allowed_ignored_of t (allowed.map pyLower) (extra_tgt_keys s t) := rfl
  have hna : (_compare_fields_core srcFields tgtFields allowed).2.extras_not_allowed =
      extras_not_allowed_of t (allowed.map pyLower) (extra_tgt_keys s t) := rfl
  rw [hig, hna]
  constructor
  · constructor
    · intro hmem
      rcases List.mem_filterMap.mp hmem with ⟨tk2, _, hf⟩
      rcases Option.bind_eq_some'.mp hf with ⟨info2, _, hif⟩
      by_cases hc : (allowed.map pyLower).contains (pyLower info2.name) = true
      · rw [if_pos hc] at hif
        rw [← Option.some_inj.mp hif]
        exact hc
      · rw [if_neg hc] at hif
        exact absurd hif (by simp)
    · intro hc
      refine List.mem_filterMap.mpr ⟨tk, htk, ?_⟩
      rw [hinfo, Option.some_bind, if_pos hc]
  · constructor
    · intro hmem
      rcases List.mem_filterMap.mp hmem with ⟨tk2, _, hf⟩
      rcases Option.bind_eq_some'.mp hf with ⟨info2, _, hif⟩
      by_cases hc : (allowed.map pyLower).contains (pyLower info2.name) = true
      · rw [if_pos hc] at hif
        exact absurd hif (by simp)
      · rw [if_neg hc] at hif
        rw [← Option.some_inj.mp hif]
        simpa using hc
    · intro hc
      refine List.mem_filterMap.mpr ⟨tk, htk, ?_⟩
      rw [hinfo, Option.some_bind, if_neg (by rw [hc]; simp)]

/-- Witness for C6: `Created_Date` is recognized by the allow-list entry
`created_date` case-insensitively, while `Created_User_` is not recognized
by `created_user` because the raw (unnormalized) name is compared. -/
theorem C6_witness :
    "Created_Date".data ∈
      (_compare_fields_core [] c6TgtFields c6Allowed).2.extras_allowed_ignored ∧
    "Created_User_".data ∈
      (_compare_fields_core [] c6TgtFields c6Allowed).2.extras_not_allowed := by
  constructor
  · exact (C6_extras_allowlist [] c6TgtFields c6Allowed
      (_list_user_fields_rich []) (_list_user_fields_rich c6TgtFields)
      "created_date".data
      ⟨"Created_Date".data, [], "Date".data, none, "created_date".data, []⟩
      rfl rfl (by decide) (by decide)).1.mpr (by decide)
  · exact (C6_extras_allowlist [] c6TgtFields c6Allowed
      (_list_user_fields_rich []) (_list_user_fields_rich c6TgtFields)
      "created_user".data
      ⟨"Created_User_".data, [], "String".data, some 10, "created_user".data, []⟩
      rfl rfl (by decide) (by decide)).2.mpr (by decide)

theorem charToNat_ofNat {n : Nat} (h : n < 55296) : (Char.ofNat n).toNat = n := by
  rw [Char.ofNat, dif_pos (Or.inl h)]
  rfl

theorem charToLower_eq_of_range {c : Char} (h : 65 ≤ c.toNat ∧ c.toNat ≤ 90) :
    c.toLower = Char.ofNat (c.toNat + 32) := by
  simp only [Char.toLower]
  rw [if_pos ⟨h.1, h.2⟩]

theorem charToLower_eq_of_not_range {c : Char} (h : ¬(65 ≤ c.toNat ∧ c.toNat ≤ 90)) :
    c.toLower = c := by
  simp only [Char.toLower]
  rw [if_neg h]

theorem charToLower_toLower (c : Char) : c.toLower.toLower = c.toLower := by
  by_cases h : 65 ≤ c.toNat ∧ c.toNat ≤ 90
  · rw [charToLower_eq_of_range h]
    apply charToLower_eq_of_not_range
    rw [charToNat_ofNat (by omega)]
    omega
  · rw [charToLower_eq_of_not_range h, charToLower_eq_of_not_range h]

theorem isWhitespace_false_of_toNat {c : Char}
    (h32 : c.toNat ≠ 32) (h9 : c.toNat ≠ 9) (h13 : c.toNat ≠ 13) (h10 : c.toNat ≠ 10) :
    c.isWhitespace = false := by
  rw [Char.isWhitespace]
  rw [decide_eq_false (fun he => h32 (by rw [he]; rfl)),
      decide_eq_false (fun he => h9 (by rw [he]; rfl)),
      decide_eq_false (fun he => h13 (by rw [he]; rfl)),
      decide_eq_false (fun he => h10 (by rw [he]; rfl))]
  rfl

theorem charToLower_not_whitespace {c : Char} (h : c.isWhitespace = false) :
    c.toLower.isWhitespace = false := by
  by_cases hr : 65 ≤ c.toNat ∧ c.toNat ≤ 90
  · rw [charToLower_eq_of_range hr]
    apply isWhitespace_false_of_toNat <;> rw [charToNat_ofNat (by omega)] <;> omega
  · rw [charToLower_eq_of_not_range hr]
    exact h

theorem pyLower_pyLower (s : Str) : pyLower (pyLower s) = pyLower s := by
  rw [pyLower, pyLower, List.map_map]
  apply List.map_congr_left
  intro c _
  exact charToLower_toLower c

theorem pyLower_dropLast (s : Str) : pyLower s.dropLast = (pyLower s).dropLast := by
  rw [pyLower, pyLower]
  exact List.map_dropLast _ _

theorem dropWhile_head_false {p : Char → Bool} (l : List Char) (c : Char) (rest : List Char)
    (h : l.dropWhile p = c :: rest) : p c = false := by
  induction l with
  | nil => simp [List.dropWhile] at h
  | cons a l ih =>
    rw [List.dropWhile_cons] at h
    split at h
    · exact ih h
    · rename_i hpa
      injection h with h1 h2
      rw [← h1]
      cases hb : p a
      · rfl
      · exact absurd hb hpa

theorem dropWhile_eq_self_of_head {p : Char → Bool} (l : List Char)
    (h : ∀ c rest, l = c :: rest → p c = false) : l.dropWhile p = l := by
  cases l with
  | nil => rfl
  | cons a l =>
    rw [List.dropWhile_cons, if_neg (by rw [h a l rfl]; simp)]

theorem dropWhile_suffix_decomp {p : Char → Bool} (l : List Char) :
    ∃ u, l = u ++ l.dropWhile p := by
  induction l with
  | nil => exact ⟨[], rfl⟩
  | cons a l ih =>
    rw [List.dropWhile_cons]
    split
    · rcases ih with ⟨u, hu⟩
      exact ⟨a :: u, by rw [List.cons_append, ← hu]⟩
    · exact ⟨[], rfl⟩

theorem pyStrip_head_not_ws (s : Str) (c : Char) (rest : List Char)
    (h : pyStrip s = c :: rest) : c.isWhitespace = false := by
  rw [pyStrip] at h
  rcases dropWhile_suffix_decomp (p := Char.isWhitespace)
      (s.dropWhile Char.isWhitespace).reverse with ⟨w, hw⟩
  have hu : s.dropWhile Char.isWhitespace =
      (List.dropWhile Char.isWhitespace (s.dropWhile Char.isWhitespace).reverse).reverse
        ++ w.reverse := by
    conv_lhs => rw [← List.reverse_reverse (s.dropWhile Char.isWhitespace), hw]
    rw [List.reverse_append]
  rw [h, List.cons_append] at hu
  exact dropWhile_head_false s c _ hu

theorem pyStrip_getLast_not_ws (s : Str) (c : Char)
    (h : (pyStrip s).getLast? = some c) : c.isWhitespace = false := by
  rw [pyStrip, List.getLast?_reverse] at h
  rcases hv : List.dropWhile Char.isWhitespace (s.dropWhile Char.isWhitespace).reverse
      with _ | ⟨a, rest⟩
  · rw [hv] at h
    simp at h
  · rw [hv] at h
    have hca : c = a := by
      rw [List.head?_cons] at h
      exact (Option.some_inj.mp h).symm
    rw [hca]
    exact dropWhile_head_false _ a rest hv

theorem pyStrip_eq_self (s : Str)
    (hhead : ∀ c rest, s = c :: rest → c.isWhitespace = false)
    (hlast : ∀ c, s.getLast? = some c → c.isWhitespace = false) :
    pyStrip s = s := by
  rw [pyStrip, dropWhile_eq_self_of_head s hhead,
      dropWhile_eq_self_of_head s.reverse ?hrev, List.reverse_reverse]
  case hrev =>
    intro c rest hc
    apply hlast
    rw [← List.head?_reverse, hc, List.head?_cons]

theorem head_of_dropLast {l : List Char} {c : Char} {rest : List Char}
    (h : l.dropLast = c :: rest) : ∃ rest2, l = c :: rest2 := by
  cases l with
  | nil => simp at h
  | cons a l =>
    cases l with
    | nil => simp at h
    | cons b l =>
      rw [List.dropLast_cons₂] at h
      injection h with h1 _
      exact ⟨b :: l, by rw [h1]⟩

theorem pyLowerStrip_head_not_ws (x : Str) (c : Char) (rest : List Char)
    (h : pyLower (pyStrip x) = c :: rest) : c.isWhitespace = false := by
  rcases hstrip : pyStrip x with _ | ⟨c0, r0⟩
  · rw [hstrip] at h
    simp [pyLower] at h
  · rw [hstrip, pyLower, List.map_cons] at h
    injection h with h1 _
    rw [← h1]
    exact charToLower_not_whitespace (pyStrip_head_not_ws x c0 r0 hstrip)

/-! ## C4: idempotence of the field-name normalizer -/

/-- C4 counterexample: the normalizer strips only one trailing underscore
per application, so `_norm_name "foo__" = "foo_"` while applying it again
yields `"foo"` — idempotence fails. -/
theorem C4_counterexample :
    _norm_name (_norm_name "foo__".data) ≠ _norm_name "foo__".data := by
  decide

/-- C4 amended: the normalizer is idempotent on every string whose
normalized form ends neither in an underscore (a second application would
strip it) nor in a whitespace character (exposed by stripping an underscore
and removed by the second application's trim); in particular it is
idempotent whenever the normalized form ends in any other character or is
empty. -/
theorem C4_amended_idempotent (x : Str)
    (h : ∀ c, (_norm_name x).getLast? = some c → c ≠ '_' ∧ c.isWhitespace = false) :
    _norm_name (_norm_name x) = _norm_name x := by
  by_cases hx : x = []
  · rw [hx]
    decide
  set y := _norm_name x with hy
  by_cases hyn : y = []
  · rw [hyn]
    decide
  have hyx : y = if (pyLower (pyStrip x)).getLast? = some '_'
      then (pyLower (pyStrip x)).dropLast else pyLower (pyStrip x) := by
    rw [hy, _norm_name, if_neg hx]
  have hlow : pyLower y = y := by
    rw [hyx]
    split
    · rw [pyLower_dropLast, pyLower_pyLower]
    · rw [pyLower_pyLower]
  have hhead : ∀ c rest, y = c :: rest → c.isWhitespace = false := by
    intro c rest hc
    rw [hyx] at hc
    by_cases hund : (pyLower (pyStrip x)).getLast? = some '_'
    · rw [if_pos hund] at hc
      rcases head_of_dropLast hc with ⟨rest2, hc2⟩
      exact pyLowerStrip_head_not_ws x c rest2 hc2
    · rw [if_neg hund] at hc
      exact pyLowerStrip_head_not_ws x c rest hc
  have hlast : ∀ c, y.getLast? = some c → c.isWhitespace = false := fun c hc => (h c hc).2
  rw [_norm_name, if_neg hyn, pyStrip_eq_self y hhead hlast, hlow,
      if_neg (fun he => (h '_' he).1 rfl)]

/-- Witness for C4: the normalizer is idempotent at `Created_User_`, whose
normalized form `created_user` ends in a plain letter. -/
theorem C4_witness :
    _norm_name (_norm_name "Created_User_".data) = _norm_name "Created_User_".data := by
  apply C4_amended_idempotent
  intro c hc
  have he : (_norm_name "Created_User_".data).getLast? = some 'r' := by decide
  rw [he] at hc
  rw [← Option.some_inj.mp hc]
  exact ⟨by decide, by decide⟩

/-! ## C3: truncate fallback transparency -/

/-- C3: in `truncate_then_append`, when the bulk truncate raises, the cursor
fallback deletes every target row one at a time (`tgt.length` deletions,
nothing left), the append still proceeds, and the resulting target state —
exactly the source rows — is the same under either truncate strategy, so
callers cannot distinguish which strategy ran. -/
theorem C3_truncate_fallback_transparent (truncateRaises : Bool) (src tgt : List Row) :
    truncate_then_append truncateRaises src tgt = src ∧
    truncate_then_append true src tgt = truncate_then_append false src tgt ∧
    (cursorDeleteAll tgt).1 = [] ∧ (cursorDeleteAll tgt).2 = tgt.length := by
  cases truncateRaises <;> simp [truncate_then_append, cursorDeleteAll_eq]

/-! ## C10: absent geometry types on both sides pass the geometry check -/

/-- C10: when neither descriptor reports a `shapeType`, both geometry types
are rendered as the string `"None"` and `geom_ok` is true — the guard's
geometry check passes for two schemas with no geometry type at all. -/
theorem C10_absent_geom_types_pass (s_desc t_desc : Descriptor) (allowed : List Str)
    (hs : geom_type s_desc = none) (ht : geom_type t_desc = none) :
    (schema_compare_details s_desc t_desc allowed).geom_ok = true ∧
    (schema_compare_details s_desc t_desc allowed).src_geom = "None".data ∧
    (schema_compare_details s_desc t_desc allowed).tgt_geom = "None".data := by
  simp [schema_compare_details, pyStrOfOpt, hs, ht]

/-- Witness for C10 at concrete descriptors with no shape type. -/
theorem C10_witness :
    geom_type (⟨some ⟨some 4326⟩, none, []⟩ : Descriptor) = none ∧
    (schema_compare_details ⟨some ⟨some 4326⟩, none, []⟩ ⟨none, none, []⟩ []).geom_ok = true := by
  exact ⟨rfl, (C10_absent_geom_types_pass ⟨some ⟨some 4326⟩, none, []⟩ ⟨none, none, []⟩ [] rfl rfl).1⟩

/-! ## C9: per-pair exception containment -/

/-- C9: any exception raised inside `process_pair`'s try block is caught:
the pair reports a `failed` outcome rather than propagating the exception,
the `finally` cleanup of the scratch names still runs, and the batch loop of
`main` continues with the remaining pairs. -/
theorem C9_pair_failure_contained (env : PairEnv) (scratch : List Str) (e : Str)
    (h : process_pair_body env = Except.error e) (rest : List PairEnv) :
    process_pair_run env scratch = (Outcome.failed e, cleanup_scratch scratch) ∧
    mainLoop (env :: rest) = Outcome.failed e :: mainLoop rest ∧
    ∀ n ∈ scratch_names, n ∉ (process_pair_run env scratch).2 := by
  refine ⟨by simp [process_pair_run, h], by simp [mainLoop, process_pair_run, h], ?_⟩
  intro n hn hmem
  rw [process_pair_run] at hmem
  rw [h] at hmem
  simp only [cleanup_scratch, List.mem_filter] at hmem
  rcases hmem with ⟨-, hcontains⟩
  have htrue : scratch_names.contains n = true := by
    simpa [List.contains] using List.elem_iff.mpr hn
  rw [htrue] at hcontains
  simp at hcontains

/-- Witness for C9: a concrete environment whose schema extraction raises. -/
theorem C9_witness :
    process_pair_body c9Env = Except.error "service unreachable".data ∧
    (process_pair_run c9Env []).1 = Outcome.failed "service unreachable".data := by
  refine ⟨rfl, ?_⟩
  have h := C9_pair_failure_contained c9Env [] "service unreachable".data rfl []
  rw [h.1]

/-! ## C1: schema mismatch performs no write on the target -/

/-- C1: when the target exists and the schema guard verdict is not ok,
`process_pair` performs no write operation on the target (empty write
trace: no truncate, no append, no row delete, no create), the target rows
after the pair equal the rows before, and the outcome carries exactly the
mismatch detail. -/
theorem C1_mismatch_no_target_write (env : PairEnv) (d : Descriptor)
    (hex : env.targetExists = true)
    (hs : env.schemaExtract = Except.ok d)
    (hne : schema_equal d env.tgtDesc env.allowed = false) :
    process_pair_body env = Except.ok
      ⟨Outcome.skippedMismatch
         (schema_compare_details d env.tgtDesc env.allowed).field_details,
       env.tgtRows, []⟩ := by
  simp [process_pair_body, hs, hex, hne]

/-- Witness for C1: a concrete pair whose target exists but is missing a
required source field; the body skips with an empty write trace and
unchanged target rows. -/
theorem C1_witness :
    c1Env.targetExists = true ∧
    schema_equal c1SrcDesc c1TgtDesc [] = false ∧
    process_pair_body c1Env = Except.ok
      ⟨Outcome.skippedMismatch
         (schema_compare_details c1SrcDesc c1TgtDesc []).field_details,
       [⟨1⟩, ⟨2⟩, ⟨3⟩], []⟩ := by
  refine ⟨rfl, by decide, ?_⟩
  exact C1_mismatch_no_target_write c1Env c1SrcDesc rfl rfl (by decide)

end ServicesAttributes
